import Mathlib

/-!
Shallow embedding of the redis-rs core: the RESP codec (`src/resp.rs`)
and the command dispatcher / database task (`src/main.rs`).

Modelling conventions:
- Rust `Bytes` / `Vec<u8>` are `List Nat` (each entry one byte value);
- Rust `String` fields are carried as their UTF-8 byte sequences, with
  `String::from_utf8` validity modelled by `utf8Valid` and
  `String::from_utf8_lossy` by `utf8Lossy`;
- `Instant` is a `Nat` reading of the monotonic clock, `Duration::from_millis`
  is addition on that clock;
- fallible paths return an explicit result constructor, and executions on
  which the Rust code panics (`Bytes::split_to` / `Bytes::advance` out of
  range, usize subtraction overflow) are marked with a dedicated `panic`
  constructor, since `Result` does not capture them.
-/

/-- RESP wire value, `RespValue` in `src/resp.rs`. -/
inductive RespValue where
  | SimpleString (s : List Nat)
  | Error (s : List Nat)
  | Integer (i : Int)
  | BulkString (data : Option (List Nat))
  | Array (items : List RespValue)

/-- Result of `RespValue::try_from(Bytes)`.  `parseError` is the
`RespError::Parse` variant (dynamic message texts from `to_string()` are
abbreviated); `panic` marks inputs on which the Rust code panics. -/
inductive DResult where
  | ok (v : RespValue)
  | parseError (msg : String)
  | panic

/-- Decimal digits of a natural number, most significant first, as ASCII
bytes; mirrors `usize::to_string` (also used for nonneg `i64`).  The fuel
argument is an upper bound on the digit count (`n` itself suffices). -/
def natDecGo : Nat → Nat → List Nat
  | 0, _ => []
  | fuel + 1, n => if n = 0 then [] else natDecGo fuel (n / 10) ++ [48 + n % 10]

/-- ASCII decimal rendering of a natural number, `to_string` on `usize`. -/
def natDec (n : Nat) : List Nat :=
  if n = 0 then [48] else natDecGo (n + 1) n

/-- ASCII decimal rendering of an integer, `i64::to_string`. -/
def intDec (i : Int) : List Nat :=
  if i < 0 then 45 :: natDec (-i).toNat else natDec i.toNat

mutual

/-- Encoding of a RESP value, `impl From<RespValue> for Bytes` in
`src/resp.rs` (`+`/`-`/`:`/`$`/`*` framing with CRLF separators). -/
def encodeResp : RespValue → List Nat
  | .SimpleString s => 43 :: (s ++ [13, 10])
  | .Error s => 45 :: (s ++ [13, 10])
  | .Integer i => 58 :: (intDec i ++ [13, 10])
  | .BulkString (some d) => 36 :: (natDec d.length ++ [13, 10] ++ d ++ [13, 10])
  | .BulkString none => [36, 45, 49, 13, 10]
  | .Array items => 42 :: (natDec items.length ++ [13, 10] ++ encodeItems items)

/-- Concatenated encodings of the array elements, the `for item in arr`
loop of the encoder. -/
def encodeItems : List RespValue → List Nat
  | [] => []
  | v :: vs => encodeResp v ++ encodeItems vs

end

/-- Whether a byte is a UTF-8 continuation byte (0x80..0xBF). -/
def isCont (c : Nat) : Bool := decide (128 ≤ c ∧ c ≤ 191)

/-- Whether a byte list is valid UTF-8; models the check done by
`String::from_utf8` (Rust std `run_utf8_validation`): ASCII, two-byte
leads C2..DF, three-byte leads E0..EF with the E0/ED restricted first
continuation ranges, four-byte leads F0..F4 with the F0/F4 restrictions. -/
def utf8Valid : List Nat → Bool
  | [] => true
  | b :: rest =>
    if b ≤ 127 then utf8Valid rest
    else if 194 ≤ b ∧ b ≤ 223 then
      match rest with
      | c1 :: r => isCont c1 && utf8Valid r
      | [] => false
    else if 224 ≤ b ∧ b ≤ 239 then
      match rest with
      | c1 :: c2 :: r =>
        decide ((if b = 224 then 160 else 128) ≤ c1 ∧
                c1 ≤ (if b = 237 then 159 else 191)) &&
        isCont c2 && utf8Valid r
      | _ => false
    else if 240 ≤ b ∧ b ≤ 244 then
      match rest with
      | c1 :: c2 :: c3 :: r =>
        decide ((if b = 240 then 144 else 128) ≤ c1 ∧
                c1 ≤ (if b = 244 then 143 else 191)) &&
        isCont c2 && isCont c3 && utf8Valid r
      | _ => false
    else false

/-- Bytes that the lossy conversion substitutes for an invalid sequence:
the UTF-8 encoding of U+FFFD. -/
def repBytes : List Nat := [239, 191, 189]

/-- Fuel-indexed body of `utf8Lossy`.  Every step consumes at least the
lead byte before recursing, so a fuel equal to the byte count never runs
out; the fuel only makes the recursion structural. -/
def utf8LossyGo : Nat → List Nat → List Nat
  | 0, _ => []
  | fuel + 1, bytes =>
    match bytes with
    | [] => []
    | b :: rest =>
      if b ≤ 127 then b :: utf8LossyGo fuel rest
      else if 194 ≤ b ∧ b ≤ 223 then
        match rest with
        | c1 :: r =>
          if isCont c1 then b :: c1 :: utf8LossyGo fuel r
          else repBytes ++ utf8LossyGo fuel rest
        | [] => repBytes
      else if 224 ≤ b ∧ b ≤ 239 then
        match rest with
        | c1 :: rest1 =>
          if (if b = 224 then 160 else 128) ≤ c1 ∧ c1 ≤ (if b = 237 then 159 else 191) then
            match rest1 with
            | c2 :: r =>
              if isCont c2 then b :: c1 :: c2 :: utf8LossyGo fuel r
              else repBytes ++ utf8LossyGo fuel rest1
            | [] => repBytes
          else repBytes ++ utf8LossyGo fuel rest
        | [] => repBytes
      else if 240 ≤ b ∧ b ≤ 244 then
        match rest with
        | c1 :: rest1 =>
          if (if b = 240 then 144 else 128) ≤ c1 ∧ c1 ≤ (if b = 244 then 143 else 191) then
            match rest1 with
            | c2 :: rest2 =>
              if isCont c2 then
                match rest2 with
                | c3 :: r =>
                  if isCont c3 then b :: c1 :: c2 :: c3 :: utf8LossyGo fuel r
                  else repBytes ++ utf8LossyGo fuel rest2
                | [] => repBytes
              else repBytes ++ utf8LossyGo fuel rest1
            | [] => repBytes
          else repBytes ++ utf8LossyGo fuel rest
        | [] => repBytes
      else repBytes ++ utf8LossyGo fuel rest

/-- The conversion `String::from_utf8_lossy`, as a map on UTF-8 bytes of
the resulting string.  Valid sequences are copied; each maximal invalid
subpart is replaced by U+FFFD following Rust std's "substitution of
maximal subparts" (an out-of-range first continuation byte is re-examined
as a fresh lead; a valid prefix of a longer sequence is consumed whole). -/
def utf8Lossy (bytes : List Nat) : List Nat := utf8LossyGo bytes.length bytes

/-- Digit-string value: `none` unless the bytes are one or more ASCII
digits; otherwise the denoted natural number.  Shared core of the Rust
`str::parse` integer parsers (a byte outside the digit range fails
exactly where `from_utf8` + `parse` would report an error). -/
def parseDigits (ds : List Nat) : Option Nat :=
  match ds with
  | [] => none
  | _ =>
    if ds.all (fun b => decide (48 ≤ b ∧ b ≤ 57)) then
      some (ds.foldl (fun a b => a * 10 + (b - 48)) 0)
    else none

/-- The parser `str::parse::<i64>`: optional `+`/`-` sign, digits, with
the i64 range check. -/
def parseI64 (bs : List Nat) : Option Int :=
  match bs with
  | 43 :: ds => (parseDigits ds).bind fun n =>
      if n < 2 ^ 63 then some (n : Int) else none
  | 45 :: ds => (parseDigits ds).bind fun n =>
      if n ≤ 2 ^ 63 then some (-(n : Int)) else none
  | ds => (parseDigits ds).bind fun n =>
      if n < 2 ^ 63 then some (n : Int) else none

/-- The parser `str::parse::<u64>` (also `usize` on a 64-bit target):
optional `+` sign, digits, with the u64 range check; a `-` sign fails. -/
def parseU64 (bs : List Nat) : Option Nat :=
  match bs with
  | 43 :: ds => (parseDigits ds).bind fun n =>
      if n < 2 ^ 64 then some n else none
  | ds => (parseDigits ds).bind fun n =>
      if n < 2 ^ 64 then some n else none

/-- The cast `len as usize` for `len : i64`: two's-complement wrap into
the u64 range. -/
def castUsize (i : Int) : Nat := (i % (2 : Int) ^ 64).toNat

/-- One list of decoded elements or the propagated failure; used by the
array branch of the decoder. -/
inductive ElemsResult where
  | ok (vs : List RespValue)
  | parseError (msg : String)
  | panic

/-- The `for _ in 0..len` loop of the array branch of
`TryFrom<Bytes> for RespValue`: decode one element from (a clone of) the
whole remaining buffer with the supplied decoder, push it, then
`advance` the buffer by the length of the element's re-encoding
(`Bytes::from(array.last().clone()).len()`); `advance` past the end of
the buffer panics. -/
def decodeElems (dec : List Nat → DResult) : Nat → List Nat → List RespValue → DResult
  | 0, _, acc => .ok (.Array acc)
  | n + 1, bytes, acc =>
    match dec bytes with
    | .ok v =>
      let encLen := (encodeResp v).length
      if bytes.length < encLen then .panic
      else decodeElems dec n (bytes.drop encLen) (acc ++ [v])
    | .parseError msg => .parseError msg
    | .panic => .panic

/-- The decoder `impl TryFrom<Bytes> for RespValue`, structured on an
explicit fuel so that nested arrays recurse on a smaller fuel.  The fuel
never runs out when it starts at `bytes.length + 1`: entering the array
branch consumes the `*` tag plus a nonempty length header plus CRLF
(at least 4 bytes) before recursing, so the nesting depth is below the
input length.  Byte constants: 43 `+`, 45 `-`, 58 `:`, 36 `$`, 42 `*`,
13 CR, 10 LF. -/
def decodeFuel : Nat → List Nat → DResult
  | 0, _ => .panic
  | fuel + 1, bytes =>
    match bytes with
    | [] => .parseError "Empty input"
    | b :: rest =>
      if b = 43 ∨ b = 45 then
        -- simple string / error: `split_to(bytes.len() - 2)` after the tag;
        -- when fewer than 2 bytes remain the usize subtraction overflows and
        -- `split_to` panics
        if rest.length < 2 then .panic
        else
          let s := rest.take (rest.length - 2)
          if utf8Valid s then
            .ok (if b = 43 then .SimpleString s else .Error s)
          else .parseError "invalid utf-8"
      else if b = 58 then
        -- integer: same `split_to(len - 2)` slice, then `parse::<i64>`
        if rest.length < 2 then .panic
        else
          match parseI64 (rest.take (rest.length - 2)) with
          | some i => .ok (.Integer i)
          | none => .parseError "invalid integer"
      else if b = 36 then
        -- bulk string: length header up to the first CR, `parse::<i64>`,
        -- `advance(2)`, then either the `-1` null sentinel or
        -- `split_to(len as usize)` of the payload and `advance(2)` again
        match rest.findIdx? (fun c => c == 13) with
        | none => .parseError "Invalid bulk string format"
        | some lenEnd =>
          match parseI64 (rest.take lenEnd) with
          | none => .parseError "invalid length"
          | some len =>
            let rest2 := rest.drop lenEnd
            if rest2.length < 2 then .panic
            else
              let rest3 := rest2.drop 2
              if len = -1 then .ok (.BulkString none)
              else
                let usLen := castUsize len
                if rest3.length < usLen then .panic
                else
                  let rest4 := rest3.drop usLen
                  if rest4.length < 2 then .panic
                  else .ok (.BulkString (some (rest3.take usLen)))
      else if b = 42 then
        -- array: length header up to the first CR, `parse::<usize>`,
        -- `advance(2)`, then the element loop
        match rest.findIdx? (fun c => c == 13) with
        | none => .parseError "Invalid array format"
        | some lenEnd =>
          match parseU64 (rest.take lenEnd) with
          | none => .parseError "invalid length"
          | some n =>
            let rest2 := rest.drop lenEnd
            if rest2.length < 2 then .panic
            else decodeElems (decodeFuel fuel) n (rest2.drop 2) []
      else .parseError "Invalid RESP data type"

/-- The decoder entry point `RespValue::try_from(Bytes)`. -/
def tryFromBytes (bytes : List Nat) : DResult :=
  decodeFuel (bytes.length + 1) bytes

/-- Database operation sent to the database task over the channel,
`DbOperation` in `src/main.rs` (the oneshot reply channels become the
returned response value). -/
inductive DbOp where
  | get (key : List Nat)
  | set (key : List Nat) (value : List Nat) (expiry : Option Nat)

/-- The database state of `run_database`: a `HashMap` from the (lossily
converted) key string to `(value bytes, optional expiry instant)`,
modelled as an association list looked up by first match. -/
abbrev Db := List (List Nat × (List Nat × Option Nat))

/-- The map read `db.get(&key).cloned()`. -/
def dbGet (db : Db) (k : List Nat) : Option (List Nat × Option Nat) :=
  List.lookup k db

/-- The map write `db.insert(key, (value, expiry))`: unconditional
replacement of the record for the key. -/
def dbInsert (db : Db) (k : List Nat) (r : List Nat × Option Nat) : Db :=
  (k, r) :: db.filter (fun p => ¬ p.1 = k)

/-- One iteration of the `run_database` receive loop: a `Get` sends back
the looked-up record and leaves the map alone; a `Set` inserts the record
and sends back a unit acknowledgement (modelled as `none`). -/
def runDatabaseStep (db : Db) : DbOp → Option (List Nat × Option Nat) × Db
  | .get key => (dbGet db key, db)
  | .set key value expiry => (none, dbInsert db key (value, expiry))

/-- Byte-wise ASCII lowercasing, `to_ascii_lowercase` (on a `String` this
agrees with the byte map because multi-byte UTF-8 code units are >= 0x80). -/
def lowerAscii (bs : List Nat) : List Nat :=
  bs.map fun b => if 65 ≤ b ∧ b ≤ 90 then b + 32 else b

/-- UTF-8 bytes of an ASCII string literal, for the fixed reply texts. -/
def asciiB (s : String) : List Nat := s.data.map Char.toNat

/-- One request-dispatch step of `process` in `src/main.rs`, for an
already decoded request value: pattern match on the array-of-bulk-strings
shape, case-insensitive verb dispatch, the database round trips for
GET/SET, and the reply written back.  `now` is the `Instant::now()`
reading of this step.  Returns the reply together with the database state
after the step. -/
def processRequest (now : Nat) (db : Db) (req : RespValue) : RespValue × Db :=
  match req with
  | .Array values =>
    match values.get? 0 with
    | some (.BulkString (some command)) =>
      -- `String::from_utf8_lossy(command)` then `to_ascii_lowercase`
      let cmdKey := lowerAscii (utf8Lossy command)
      if cmdKey = [112, 105, 110, 103] then -- "ping"
        match values.get? 1 with
        | some (.BulkString (some arg)) => (.BulkString (some arg), db)
        | _ => (.SimpleString (asciiB "PONG"), db)
      else if cmdKey = [101, 99, 104, 111] then -- "echo"
        match values.get? 1 with
        | some (.BulkString (some arg)) => (.BulkString (some arg), db)
        | _ => (.Error (asciiB "Invalid ECHO command format"), db)
      else if cmdKey = [103, 101, 116] then -- "get"
        match values.get? 1 with
        | some (.BulkString (some key)) =>
          let keyStr := utf8Lossy key
          let dbResp := runDatabaseStep db (.get keyStr)
          let reply :=
            match dbResp.1 with
            | some (value, some exp) =>
              -- `if Instant::now() > exp` at read time
              if now > exp then RespValue.BulkString none
              else RespValue.BulkString (some value)
            | some (value, none) => RespValue.BulkString (some value)
            | none => RespValue.BulkString none
          (reply, dbResp.2)
        | _ => (.Error (asciiB "Invalid GET command format"), db)
      else if cmdKey = [115, 101, 116] then -- "set"
        match values.get? 1, values.get? 2, values.get? 3, values.get? 4 with
        | some (.BulkString (some key)), some (.BulkString (some value)),
          some (.BulkString (some px)), some (.BulkString (some ms)) =>
          if lowerAscii px = [112, 120] then -- guard `px.to_ascii_lowercase() == b"px"`
            let keyStr := utf8Lossy key
            -- `from_utf8_lossy(ms).parse::<u64>().map(now + millis).ok()`:
            -- a failed parse becomes `None`, i.e. no expiry
            let expiry := (parseU64 (utf8Lossy ms)).map fun m => now + m
            let dbResp := runDatabaseStep db (.set keyStr value expiry)
            (.SimpleString (asciiB "OK"), dbResp.2)
          else (.Error (asciiB "Invalid SET command format"), db)
        | some (.BulkString (some key)), some (.BulkString (some value)), none, none =>
          let keyStr := utf8Lossy key
          let dbResp := runDatabaseStep db (.set keyStr value none)
          (.SimpleString (asciiB "OK"), dbResp.2)
        | _, _, _, _ => (.Error (asciiB "Invalid SET command format"), db)
      else (.Error (asciiB "Unknown command"), db)
    | _ => (.Error (asciiB "Invalid command format"), db)
  | _ => (.Error (asciiB "Invalid request format"), db)

/-- Whether a reply value is an Error message. -/
def isErrorReply : RespValue → Bool
  | .Error _ => true
  | _ => false

/-- Spec-side shape predicate for the SET argument list, following the
dispatcher's match: either key and value and nothing else, or key and
value followed by a case-insensitive `PX` and a present fourth bulk
string (the match never inspects positions past the fourth). -/
def setShapeOk (values : List RespValue) : Bool :=
  match values.get? 1, values.get? 2, values.get? 3, values.get? 4 with
  | some (.BulkString (some _)), some (.BulkString (some _)),
    some (.BulkString (some px)), some (.BulkString (some _)) =>
      decide (lowerAscii px = [112, 120])
  | some (.BulkString (some _)), some (.BulkString (some _)), none, none => true
  | _, _, _, _ => false

/-- C1: the round-trip contract `decode(encode(m)) == m` fails on the
code: for `m = Array [Integer 0, Integer 0]` the decoder's simple
`split_to(len - 2)` slice swallows the second element into the first
integer's digit string, so decoding the encoding reports a parse error
instead of returning `m`. -/
theorem c1_roundtrip_fails :
    tryFromBytes (encodeResp (.Array [.Integer 0, .Integer 0]))
      = DResult.parseError "invalid integer" ∧
    tryFromBytes (encodeResp (.Array [.Integer 0, .Integer 0]))
      ≠ DResult.ok (.Array [.Integer 0, .Integer 0]) := by
  constructor
  · rfl
  · intro h
    have e : tryFromBytes (encodeResp (.Array [.Integer 0, .Integer 0]))
        = DResult.parseError "invalid integer" := rfl
    rw [e] at h
    simp at h

/-- C2: decode is not total: on the truncated bulk string `$3\r\nab`
(declared length 3, only 2 payload bytes remaining) the code reaches
`bytes.split_to(3)` on a 2-byte buffer and panics instead of returning a
`ParseError`. -/
theorem c2_truncated_bulk_panics :
    tryFromBytes [36, 51, 13, 10, 97, 98] = DResult.panic := rfl

/-- C3: decode consumes more than one complete message: decoding
`encode(SimpleString "OK")` followed by the trailing byte `X` does not
yield `SimpleString "OK"` — the `split_to(len - 2)` slice runs to the end
of the whole buffer and produces `SimpleString "OK\r"` instead, so
trailing bytes are not left untouched. -/
theorem c3_trailing_byte_consumed :
    tryFromBytes (encodeResp (.SimpleString [79, 75]) ++ [88])
      = DResult.ok (.SimpleString [79, 75, 13]) ∧
    tryFromBytes (encodeResp (.SimpleString [79, 75]) ++ [88])
      ≠ DResult.ok (.SimpleString [79, 75]) := by
  constructor
  · rfl
  · intro h
    have e : tryFromBytes (encodeResp (.SimpleString [79, 75]) ++ [88])
        = DResult.ok (.SimpleString [79, 75, 13]) := rfl
    rw [e] at h
    simp at h

/-- C4 counterexample: a SET whose PX milliseconds argument `abc` does not
parse is claimed to draw an Error reply, but the dispatcher's
`.parse::<u64>().ok()` swallows the failure: the reply is
`SimpleString("OK")`, not an Error, and the record is stored with no
expiry. -/
theorem c4_px_unparsable_replies_ok :
    (processRequest 0 [] (.Array [.BulkString (some [115, 101, 116]),
        .BulkString (some [107]), .BulkString (some [118]),
        .BulkString (some [112, 120]), .BulkString (some [97, 98, 99])])).1
      = .SimpleString (asciiB "OK") ∧
    isErrorReply (processRequest 0 [] (.Array [.BulkString (some [115, 101, 116]),
        .BulkString (some [107]), .BulkString (some [118]),
        .BulkString (some [112, 120]), .BulkString (some [97, 98, 99])])).1
      = false ∧
    (processRequest 0 [] (.Array [.BulkString (some [115, 101, 116]),
        .BulkString (some [107]), .BulkString (some [118]),
        .BulkString (some [112, 120]), .BulkString (some [97, 98, 99])])).2
      = [([107], ([118], none))] := by
  refine ⟨rfl, rfl, rfl⟩

/-- C4 (amended): for every SET request the dispatcher replies with an
Error (and leaves the store untouched) exactly when the argument shape is
neither key-and-value alone nor key, value, case-insensitive `PX` and a
present fourth bulk string; a well-shaped SET replies `OK`, and in
particular a present `PX` whose milliseconds do not parse still replies
`OK` and stores the record without expiry (arguments past the fourth are
ignored). -/
theorem c4_set_dispatch (now : Nat) (db : Db) (args : List RespValue) :
    ((setShapeOk (RespValue.BulkString (some [115, 101, 116]) :: args) = false →
      processRequest now db (.Array (RespValue.BulkString (some [115, 101, 116]) :: args))
        = (.Error (asciiB "Invalid SET command format"), db)) ∧
    (setShapeOk (RespValue.BulkString (some [115, 101, 116]) :: args) = true →
      (processRequest now db (.Array (RespValue.BulkString (some [115, 101, 116]) :: args))).1
        = .SimpleString (asciiB "OK"))) ∧
    (∀ k v ms rest2, args = RespValue.BulkString (some k) :: RespValue.BulkString (some v) ::
        RespValue.BulkString (some [112, 120]) :: RespValue.BulkString (some ms) :: rest2 →
      parseU64 (utf8Lossy ms) = none →
      processRequest now db (.Array (RespValue.BulkString (some [115, 101, 116]) :: args))
        = (.SimpleString (asciiB "OK"), dbInsert db (utf8Lossy k) (v, none))) := by
  constructor
  · have e0 : (RespValue.BulkString (some [115, 101, 116]) :: args).get? 0
        = some (RespValue.BulkString (some [115, 101, 116])) := rfl
    have hcmd : lowerAscii (utf8Lossy [115, 101, 116]) = [115, 101, 116] := rfl
    have hne1 : ¬ ([115, 101, 116] : List Nat) = [112, 105, 110, 103] := by decide
    have hne2 : ¬ ([115, 101, 116] : List Nat) = [101, 99, 104, 111] := by decide
    have hne3 : ¬ ([115, 101, 116] : List Nat) = [103, 101, 116] := by decide
    simp only [processRequest, setShapeOk, e0, hcmd, if_neg hne1, if_neg hne2, if_neg hne3,
      if_pos rfl]
    split
    · rename_i key value px ms h1 h2 h3 h4
      by_cases hpx : lowerAscii px = [112, 120]
      · simp [hpx]
      · simp [hpx]
    · constructor
      · intro h
        exact absurd h (by simp)
      · intro h
        rfl
    · constructor
      · intro h
        rfl
      · intro h
        exact absurd h (by simp)
  · intro k v ms rest2 hargs hms
    subst hargs
    have hcmd : lowerAscii (utf8Lossy [115, 101, 116]) = [115, 101, 116] := rfl
    have hpx : lowerAscii ([112, 120] : List Nat) = [112, 120] := rfl
    simp [processRequest, hms, runDatabaseStep, hcmd, hpx]

/-- C4 witness: the amended dispatch theorem applied to a SET with no
arguments (Error reply), a well-formed two-argument SET (`OK`), and a SET
whose PX milliseconds `abc` do not parse (`OK`, stored with no expiry). -/
theorem c4_set_dispatch_witness :
    processRequest 0 [] (.Array [.BulkString (some [115, 101, 116])])
      = (.Error (asciiB "Invalid SET command format"), []) ∧
    (processRequest 0 [] (.Array [.BulkString (some [115, 101, 116]),
        .BulkString (some [107]), .BulkString (some [118])])).1
      = .SimpleString (asciiB "OK") ∧
    processRequest 0 [] (.Array [.BulkString (some [115, 101, 116]),
        .BulkString (some [107]), .BulkString (some [118]),
        .BulkString (some [112, 120]), .BulkString (some [97, 98, 99])])
      = (.SimpleString (asciiB "OK"), dbInsert [] (utf8Lossy [107]) ([118], none)) :=
  ⟨(c4_set_dispatch 0 [] []).1.1 rfl,
   (c4_set_dispatch 0 [] [.BulkString (some [107]), .BulkString (some [118])]).1.2 rfl,
   (c4_set_dispatch 0 [] [.BulkString (some [107]), .BulkString (some [118]),
      .BulkString (some [112, 120]), .BulkString (some [97, 98, 99])]).2
     [107] [118] [97, 98, 99] [] rfl rfl⟩

/-- Looking up a key right after inserting it yields the inserted record
(`HashMap::insert` then `get`). -/
theorem dbGet_insert_self (db : Db) (k : List Nat) (r : List Nat × Option Nat) :
    dbGet (dbInsert db k r) k = some r := by
  simp [dbGet, dbInsert, List.lookup]

/-- C5: a record with a stored expiry is still served at the exact expiry
instant and reported absent strictly after it: GET compares the stored
absolute expiry against the clock reading of the read itself (`now`), and
replies with the value iff `now ≤ expiry`. -/
theorem c5_expiry_boundary (now e : Nat) (db : Db) (k v : List Nat)
    (hdb : dbGet db (utf8Lossy k) = some (v, some e)) :
    (processRequest now db (.Array [.BulkString (some [103, 101, 116]),
        .BulkString (some k)])).1
      = if now ≤ e then .BulkString (some v) else .BulkString none := by
  have hcmd : lowerAscii (utf8Lossy [103, 101, 116]) = [103, 101, 116] := rfl
  simp [processRequest, runDatabaseStep, hcmd, hdb]
  rcases le_or_lt now e with h | h
  · simp [Nat.not_lt.mpr h, h]
  · simp [h, Nat.not_le.mpr h]

/-- C5 witness: at the exact expiry boundary (clock 5, expiry 5) the GET
still returns the stored value. -/
theorem c5_expiry_boundary_witness :
    (processRequest 5 [([107], ([118], some 5))]
        (.Array [.BulkString (some [103, 101, 116]), .BulkString (some [107])])).1
      = if 5 ≤ 5 then RespValue.BulkString (some [118]) else RespValue.BulkString none :=
  c5_expiry_boundary 5 5 [([107], ([118], some 5))] [107] [118] rfl

/-- C6: a SET without PX fully replaces the record and clears a previously
stored PX expiry: after `SET k v1 PX ms` followed by `SET k v2`, the second
SET replies `OK`, the stored record is `(v2, no expiry)`, and a GET at any
later (or any) clock reading returns `v2`. -/
theorem c6_set_without_px_clears_expiry (now0 now1 now2 : Nat) (db0 : Db)
    (k v1 v2 msB : List Nat) :
    (processRequest now1
        (processRequest now0 db0 (.Array [.BulkString (some [115, 101, 116]),
            .BulkString (some k), .BulkString (some v1),
            .BulkString (some [112, 120]), .BulkString (some msB)])).2
        (.Array [.BulkString (some [115, 101, 116]),
            .BulkString (some k), .BulkString (some v2)])).1
      = .SimpleString (asciiB "OK") ∧
    dbGet (processRequest now1
        (processRequest now0 db0 (.Array [.BulkString (some [115, 101, 116]),
            .BulkString (some k), .BulkString (some v1),
            .BulkString (some [112, 120]), .BulkString (some msB)])).2
        (.Array [.BulkString (some [115, 101, 116]),
            .BulkString (some k), .BulkString (some v2)])).2 (utf8Lossy k)
      = some (v2, none) ∧
    (processRequest now2 (processRequest now1
        (processRequest now0 db0 (.Array [.BulkString (some [115, 101, 116]),
            .BulkString (some k), .BulkString (some v1),
            .BulkString (some [112, 120]), .BulkString (some msB)])).2
        (.Array [.BulkString (some [115, 101, 116]),
            .BulkString (some k), .BulkString (some v2)])).2
        (.Array [.BulkString (some [103, 101, 116]), .BulkString (some k)])).1
      = .BulkString (some v2) := by
  have hcmds : lowerAscii (utf8Lossy [115, 101, 116]) = [115, 101, 116] := rfl
  have hcmdg : lowerAscii (utf8Lossy [103, 101, 116]) = [103, 101, 116] := rfl
  have hpx : lowerAscii ([112, 120] : List Nat) = [112, 120] := rfl
  refine ⟨by simp [processRequest, runDatabaseStep, hcmds, hpx], ?_, ?_⟩
  · simp [processRequest, runDatabaseStep, hcmds, hpx, dbGet_insert_self]
  · simp [processRequest, runDatabaseStep, hcmds, hcmdg, hpx, dbGet_insert_self]

/-- C7: sequential GET/SET correctness: a GET for a key whose (lossily
converted) string is absent from the store replies with the null bulk
string, and after a SET of that key with no expiry a GET replies with the
stored value. -/
theorem c7_get_set_sequential (now now2 : Nat) (db : Db) (k v : List Nat)
    (hnone : dbGet db (utf8Lossy k) = none) :
    (processRequest now db (.Array [.BulkString (some [103, 101, 116]),
        .BulkString (some k)])).1 = .BulkString none ∧
    (processRequest now2
        (processRequest now db (.Array [.BulkString (some [115, 101, 116]),
            .BulkString (some k), .BulkString (some v)])).2
        (.Array [.BulkString (some [103, 101, 116]), .BulkString (some k)])).1
      = .BulkString (some v) := by
  have hcmds : lowerAscii (utf8Lossy [115, 101, 116]) = [115, 101, 116] := rfl
  have hcmdg : lowerAscii (utf8Lossy [103, 101, 116]) = [103, 101, 116] := rfl
  constructor
  · simp [processRequest, runDatabaseStep, hcmdg, hnone]
  · simp [processRequest, runDatabaseStep, hcmds, hcmdg, dbGet_insert_self]

/-- C7 witness: on the empty store, GET of key `k` is null, and after
`SET k v` the GET returns `v`. -/
theorem c7_get_set_sequential_witness :
    (processRequest 0 [] (.Array [.BulkString (some [103, 101, 116]),
        .BulkString (some [107])])).1 = RespValue.BulkString none ∧
    (processRequest 1
        (processRequest 0 [] (.Array [.BulkString (some [115, 101, 116]),
            .BulkString (some [107]), .BulkString (some [118])])).2
        (.Array [.BulkString (some [103, 101, 116]), .BulkString (some [107])])).1
      = RespValue.BulkString (some [118]) :=
  c7_get_set_sequential 0 1 [] [107] [118] rfl

/-- Spec-side predicate for C8: the valid top-level request shape, an
Array whose first element is a present bulk string. -/
def validTopShape : RespValue → Bool
  | .Array (.BulkString (some _) :: _) => true
  | _ => false

/-- C8: the dispatcher produces exactly one reply per decoded request
(the model returns a single reply value): `Error("Unknown command")` when
the first array element is a present bulk string that lowercases to none
of ping/echo/get/set, and an Error reply for every top-level value that
is not an Array headed by a present bulk string. -/
theorem c8_dispatch_replies (now : Nat) (db : Db) :
    (∀ (cmd : List Nat) (rest : List RespValue),
      lowerAscii (utf8Lossy cmd) ≠ [112, 105, 110, 103] →
      lowerAscii (utf8Lossy cmd) ≠ [101, 99, 104, 111] →
      lowerAscii (utf8Lossy cmd) ≠ [103, 101, 116] →
      lowerAscii (utf8Lossy cmd) ≠ [115, 101, 116] →
      processRequest now db (.Array (RespValue.BulkString (some cmd) :: rest))
        = (.Error (asciiB "Unknown command"), db)) ∧
    (∀ req : RespValue, validTopShape req = false →
      isErrorReply (processRequest now db req).1 = true) := by
  constructor
  · intro cmd rest h1 h2 h3 h4
    have e0 : (RespValue.BulkString (some cmd) :: rest).get? 0
        = some (RespValue.BulkString (some cmd)) := rfl
    simp only [processRequest, e0, if_neg h1, if_neg h2, if_neg h3, if_neg h4]
  · intro req h
    match req with
    | .SimpleString s => rfl
    | .Error s => rfl
    | .Integer i => rfl
    | .BulkString d => rfl
    | .Array [] => rfl
    | .Array (.SimpleString s :: rest) => rfl
    | .Array (.Error s :: rest) => rfl
    | .Array (.Integer i :: rest) => rfl
    | .Array (.BulkString none :: rest) => rfl
    | .Array (.Array items :: rest) => rfl
    | .Array (.BulkString (some cmd) :: rest) => simp [validTopShape] at h

/-- C8 witness: the unknown verb `FOO` draws `Error("Unknown command")`,
and the non-array request `Integer 5` draws an Error reply. -/
theorem c8_dispatch_replies_witness :
    processRequest 0 [] (.Array [.BulkString (some [70, 79, 79])])
      = (.Error (asciiB "Unknown command"), []) ∧
    isErrorReply (processRequest 0 [] (.Integer 5)).1 = true :=
  ⟨(c8_dispatch_replies 0 []).1 [70, 79, 79] [] (by decide) (by decide) (by decide) (by decide),
   (c8_dispatch_replies 0 []).2 (.Integer 5) rfl⟩

/-- C9: store keys are identified after lossy UTF-8 conversion: a SET
stores its record under `from_utf8_lossy` of the key bytes, so whenever
two key byte strings have the same lossy conversion, a GET for the second
observes a value SET under the first. -/
theorem c9_lossy_key_alias (now now2 : Nat) (db : Db) (k1 k2 v : List Nat)
    (halias : utf8Lossy k1 = utf8Lossy k2) :
    (processRequest now db (.Array [.BulkString (some [115, 101, 116]),
        .BulkString (some k1), .BulkString (some v)])).2
      = dbInsert db (utf8Lossy k1) (v, none) ∧
    (processRequest now2
        (processRequest now db (.Array [.BulkString (some [115, 101, 116]),
            .BulkString (some k1), .BulkString (some v)])).2
        (.Array [.BulkString (some [103, 101, 116]), .BulkString (some k2)])).1
      = .BulkString (some v) := by
  have hcmds : lowerAscii (utf8Lossy [115, 101, 116]) = [115, 101, 116] := rfl
  have hcmdg : lowerAscii (utf8Lossy [103, 101, 116]) = [103, 101, 116] := rfl
  constructor
  · simp [processRequest, runDatabaseStep, hcmds]
  · simp [processRequest, runDatabaseStep, hcmds, hcmdg, ← halias, dbGet_insert_self]

/-- C9 witness: the distinct one-byte keys 0xFF and 0xFE are both invalid
UTF-8 and lossily convert to the same replacement-character string, so a
GET of 0xFE reads the record SET under 0xFF. -/
theorem c9_lossy_key_alias_witness :
    ([255] : List Nat) ≠ [254] ∧
    (processRequest 1
        (processRequest 0 [] (.Array [.BulkString (some [115, 101, 116]),
            .BulkString (some [255]), .BulkString (some [118])])).2
        (.Array [.BulkString (some [103, 101, 116]), .BulkString (some [254])])).1
      = RespValue.BulkString (some [118]) :=
  ⟨by decide, (c9_lossy_key_alias 0 1 [] [255] [254] [118] rfl).2⟩

/-- C10: GET never mutates the store: processing any GET request leaves
the database state exactly as it was (even when the record it observes is
expired — nothing is evicted), and the database task's Get handler
returns the map unchanged for every key. -/
theorem c10_get_never_mutates (now : Nat) (db : Db) (rest : List RespValue) :
    (processRequest now db (.Array (RespValue.BulkString (some [103, 101, 116]) :: rest))).2
      = db ∧
    ∀ key, (runDatabaseStep db (.get key)).2 = db := by
  have hcmdg : lowerAscii (utf8Lossy [103, 101, 116]) = [103, 101, 116] := rfl
  constructor
  · have e0 : (RespValue.BulkString (some [103, 101, 116]) :: rest).get? 0
        = some (RespValue.BulkString (some [103, 101, 116])) := rfl
    have hne1 : ¬ ([103, 101, 116] : List Nat) = [112, 105, 110, 103] := by decide
    have hne2 : ¬ ([103, 101, 116] : List Nat) = [101, 99, 104, 111] := by decide
    simp only [processRequest, e0, hcmdg, if_neg hne1, if_neg hne2, if_pos rfl, if_true]
    split
    · rfl
    · rfl
  · intro key
    rfl
